import Mathlib

/-!
Verification of the regression-metric evaluation in
`tutorials/regression-part2-automated-ml.ipynb`.

The notebook evaluates a regression model with two consecutive cells:

* an RMSE cell, `rmse = sqrt(mean_squared_error(y_actual, y_predict))`,
  where `mean_squared_error` is the scikit-learn library function;
* a MAPE cell, a `for`-loop over `zip(y_actual, y_predict)` that
  accumulates `sum_errors` (with a branchy absolute value) and
  `sum_actuals`, then forms `mean_abs_percent_error = sum_errors / sum_actuals`
  and prints `1 - mean_abs_percent_error` as the model accuracy.

We embed the loop and the library call over a linear ordered field
(instantiated at `ℝ` for the top-level `evaluate`), with fallible steps
returned as `Except`.
-/

/-- Failure conditions of the evaluation: the input-validation error raised
by the scikit-learn metric call (a `ValueError` in Python), and the
`ZeroDivisionError` raised by Python when `sum_actuals` is zero. -/
inductive EvalError where
  | invalidInput
  | divisionByZero
deriving DecidableEq, Repr

/-- The loop body's local `abs_error`:
`abs_error = actual_val - predict_val; if abs_error < 0: abs_error = abs_error * -1`. -/
def abs_error {α : Type*} [LinearOrderedField α] (actual_val predict_val : α) : α :=
  if actual_val - predict_val < 0 then (actual_val - predict_val) * -1
  else actual_val - predict_val

/-- One iteration of the MAPE loop. The state is `(sum_errors, sum_actuals)`
and the element is `(actual_val, predict_val)`:
`sum_errors = sum_errors + abs_error; sum_actuals = sum_actuals + actual_val`. -/
def mapeStep {α : Type*} [LinearOrderedField α] (st yp : α × α) : α × α :=
  (st.1 + abs_error yp.1 yp.2, st.2 + yp.1)

/-- The whole loop `for actual_val, predict_val in zip(y_actual, y_predict): ...`
starting from `sum_actuals = sum_errors = 0`. -/
def mapeSums {α : Type*} [LinearOrderedField α] (y_actual y_predict : List α) : α × α :=
  (y_actual.zip y_predict).foldl mapeStep (0, 0)

/-- The MAPE cell: run the loop, then `mean_abs_percent_error = sum_errors / sum_actuals`.
In Python the division raises `ZeroDivisionError` when `sum_actuals` is zero
(the inputs are Python numbers, whose `/` raises rather than returning
infinity), which we model as an `Except.error`. -/
def mean_abs_percent_error {α : Type*} [LinearOrderedField α]
    (y_actual y_predict : List α) : Except EvalError α :=
  let s := mapeSums y_actual y_predict
  if s.2 = 0 then .error .divisionByZero
  else .ok (s.1 / s.2)

/-- Modelled from the scikit-learn call in the notebook:
`sklearn.metrics.mean_squared_error(y_true, y_pred)` first validates its
inputs — it raises `ValueError` when the two sequences have inconsistent
lengths (`check_consistent_length`) or fewer than one sample
(`check_array` with `ensure_min_samples=1`) — and otherwise returns the
average of the squared differences. The function itself is library code,
not part of this repository. -/
def mean_squared_error {α : Type*} [LinearOrderedField α]
    (y_true y_pred : List α) : Except EvalError α :=
  if y_true.length ≠ y_pred.length ∨ y_true.length = 0 then .error .invalidInput
  else .ok (((y_true.zip y_pred).map fun x => (x.1 - x.2) ^ 2).sum / (y_true.length : α))

/-- The RMSE cell: `rmse = sqrt(mean_squared_error(y_actual, y_predict))`. -/
noncomputable def rmse (y_actual y_predict : List ℝ) : Except EvalError ℝ :=
  (mean_squared_error y_actual y_predict).map Real.sqrt

/-- The record of metrics the two cells produce: the printed `rmse`,
`mean_abs_percent_error` and model accuracy `1 - mean_abs_percent_error`. -/
structure MetricResult where
  rmse : ℝ
  mape : ℝ
  accuracy : ℝ

/-- The evaluation procedure as a whole: the RMSE cell followed by the MAPE
cell, on the same pair of sequences. A failure in either cell aborts the
run before a metric record is produced. -/
noncomputable def evaluate (y_actual y_predict : List ℝ) : Except EvalError MetricResult :=
  match rmse y_actual y_predict with
  | .error e => .error e
  | .ok r =>
    match mean_abs_percent_error y_actual y_predict with
    | .error e => .error e
    | .ok m => .ok ⟨r, m, 1 - m⟩

/-- The ratio-of-sums MAPE, written from the spec: the sum of the absolute
per-pair differences divided by the sum of the actual values. -/
def ratio_of_sums_mape {α : Type*} [LinearOrderedField α] (a p : List α) : α :=
  ((a.zip p).map fun x => |x.1 - x.2|).sum / a.sum

/-- The textbook mean of per-pair percentage errors, written from the claim:
the average over the pairs of `|actual - predicted| / actual`. -/
def mean_of_ratios_mape {α : Type*} [LinearOrderedField α] (a p : List α) : α :=
  ((a.zip p).map fun x => |x.1 - x.2| / x.1).sum / (a.length : α)

/-! ### Helper lemmas -/

lemma abs_error_abs {α : Type*} [LinearOrderedField α] (a p : α) :
    abs_error a p = |a - p| := by
  unfold abs_error
  split
  · rw [abs_of_neg (by assumption)]; ring
  · rw [abs_of_nonneg (not_lt.mp (by assumption))]

lemma mapeStep_foldl {α : Type*} [LinearOrderedField α] (l : List (α × α)) (e s : α) :
    l.foldl mapeStep (e, s)
      = (e + (l.map fun x => |x.1 - x.2|).sum, s + (l.map Prod.fst).sum) := by
  induction l generalizing e s with
  | nil => simp
  | cons hd tl ih =>
    simp only [List.foldl_cons, List.map_cons, List.sum_cons, mapeStep, abs_error_abs]
    rw [ih]
    exact Prod.ext (by ring) (by ring)

lemma mapeSums_eq {α : Type*} [LinearOrderedField α] (ya yp : List α) :
    mapeSums ya yp
      = (((ya.zip yp).map fun x => |x.1 - x.2|).sum, ((ya.zip yp).map Prod.fst).sum) := by
  unfold mapeSums
  rw [mapeStep_foldl]
  simp

lemma zip_map_fst_take {α β : Type*} (a : List α) (p : List β) :
    (a.zip p).map Prod.fst = a.take (min a.length p.length) := by
  induction a generalizing p with
  | nil => simp
  | cons x xs ih =>
    cases p with
    | nil => simp
    | cons y ys =>
      simp only [List.zip_cons_cons, List.map_cons, List.length_cons,
        Nat.succ_min_succ, List.take_succ_cons]
      rw [ih]

lemma zip_map_fst_of_length_eq {α β : Type*} (a : List α) (p : List β)
    (hlen : a.length = p.length) : (a.zip p).map Prod.fst = a := by
  rw [zip_map_fst_take, hlen, min_self, ← hlen, List.take_length]

lemma mape_ok {α : Type*} [LinearOrderedField α] (ya yp : List α)
    (h : ((ya.zip yp).map Prod.fst).sum ≠ 0) :
    mean_abs_percent_error ya yp
      = .ok (((ya.zip yp).map fun x => |x.1 - x.2|).sum / ((ya.zip yp).map Prod.fst).sum) := by
  unfold mean_abs_percent_error
  rw [mapeSums_eq]
  exact if_neg h

lemma mape_err {α : Type*} [LinearOrderedField α] (ya yp : List α)
    (h : ((ya.zip yp).map Prod.fst).sum = 0) :
    mean_abs_percent_error ya yp = .error .divisionByZero := by
  unfold mean_abs_percent_error
  rw [mapeSums_eq]
  exact if_pos h

lemma mse_ok {α : Type*} [LinearOrderedField α] (a p : List α)
    (hlen : a.length = p.length) (hne : a.length ≠ 0) :
    mean_squared_error a p
      = .ok (((a.zip p).map fun x => (x.1 - x.2) ^ 2).sum / (a.length : α)) := by
  unfold mean_squared_error
  rw [if_neg]
  push_neg
  exact ⟨hlen, hne⟩

lemma mse_err {α : Type*} [LinearOrderedField α] (a p : List α)
    (h : a.length ≠ p.length ∨ a.length = 0) :
    mean_squared_error a p = .error .invalidInput := by
  unfold mean_squared_error
  exact if_pos h

lemma evaluate_ok (a p : List ℝ) (hlen : a.length = p.length) (hne : a ≠ [])
    (hsum : a.sum ≠ 0) :
    evaluate a p
      = .ok ⟨Real.sqrt (((a.zip p).map fun x => (x.1 - x.2) ^ 2).sum / (a.length : ℝ)),
             ratio_of_sums_mape a p, 1 - ratio_of_sums_mape a p⟩ := by
  have hlen0 : a.length ≠ 0 := fun h => hne (List.length_eq_zero.mp h)
  have hfst : ((a.zip p).map Prod.fst).sum = a.sum := by
    rw [zip_map_fst_of_length_eq a p hlen]
  unfold evaluate rmse
  rw [mse_ok a p hlen hlen0, mape_ok a p (by rw [hfst]; exact hsum)]
  unfold ratio_of_sums_mape
  rw [hfst]
  rfl

lemma evaluate_err_invalid (a p : List ℝ) (h : a.length ≠ p.length ∨ a.length = 0) :
    evaluate a p = .error .invalidInput := by
  unfold evaluate rmse
  rw [mse_err a p h]
  rfl

lemma evaluate_err_div (a p : List ℝ) (hlen : a.length = p.length) (hne : a ≠ [])
    (hsum : a.sum = 0) :
    evaluate a p = .error .divisionByZero := by
  have hlen0 : a.length ≠ 0 := fun h => hne (List.length_eq_zero.mp h)
  have hfst : ((a.zip p).map Prod.fst).sum = a.sum := by
    rw [zip_map_fst_of_length_eq a p hlen]
  unfold evaluate rmse
  rw [mse_ok a p hlen hlen0, mape_err a p (by rw [hfst]; exact hsum)]
  rfl

lemma evaluate_ok_inv (a p : List ℝ) (r : MetricResult) (h : evaluate a p = .ok r) :
    a.length = p.length ∧ a ≠ [] ∧ a.sum ≠ 0 := by
  by_cases hlen : a.length = p.length
  · by_cases hne : a = []
    · rw [evaluate_err_invalid a p (Or.inr (by simp [hne]))] at h
      exact absurd h (by simp)
    · by_cases hsum : a.sum = 0
      · rw [evaluate_err_div a p hlen hne hsum] at h
        exact absurd h (by simp)
      · exact ⟨hlen, hne, hsum⟩
  · rw [evaluate_err_invalid a p (Or.inl hlen)] at h
    exact absurd h (by simp)

lemma evaluate_ok_val (a p : List ℝ) (r : MetricResult) (h : evaluate a p = .ok r) :
    r = ⟨Real.sqrt (((a.zip p).map fun x => (x.1 - x.2) ^ 2).sum / (a.length : ℝ)),
         ratio_of_sums_mape a p, 1 - ratio_of_sums_mape a p⟩ := by
  obtain ⟨hlen, hne, hsum⟩ := evaluate_ok_inv a p r h
  rw [evaluate_ok a p hlen hne hsum] at h
  exact (Except.ok.injEq _ _ ▸ h.symm :)

lemma zip_sum_zero_iff {f : ℝ → ℝ} (hf0 : ∀ x, 0 ≤ f x) (hf : ∀ x, f x = 0 ↔ x = 0)
    (a p : List ℝ) (hlen : a.length = p.length) :
    ((a.zip p).map fun x => f (x.1 - x.2)).sum = 0 ↔ a = p := by
  induction a generalizing p with
  | nil =>
    cases p with
    | nil => simp
    | cons y ys => simp at hlen
  | cons x xs ih =>
    cases p with
    | nil => simp at hlen
    | cons y ys =>
      simp only [List.zip_cons_cons, List.map_cons, List.sum_cons]
      have h1 : 0 ≤ f (x - y) := hf0 _
      have h2 : 0 ≤ ((xs.zip ys).map fun x => f (x.1 - x.2)).sum := by
        apply List.sum_nonneg
        intro z hz
        obtain ⟨w, _, hw⟩ := List.mem_map.mp hz
        exact hw ▸ hf0 _
      rw [add_eq_zero_iff_of_nonneg h1 h2, hf, sub_eq_zero,
        ih ys (by simpa using hlen), List.cons_eq_cons]

/-! ### Claims -/

/-- C1: for every pair of equal-length non-empty sequences with nonzero sum of
actual values, the MAPE returned by `evaluate` is the sum of the absolute
per-pair differences divided by the sum of the actual values (the
ratio-of-sums form); on the notebook's style of data this differs from the
mean of per-pair percentage errors, as the concrete input
`[10, 20, 30]` / `[12, 18, 33]` shows. -/
theorem evaluate_mape_eq_ratio_of_sums (a p : List ℝ)
    (hlen : a.length = p.length) (hne : a ≠ []) (hsum : a.sum ≠ 0) :
    (∃ r : MetricResult, evaluate a p = .ok r ∧
      r.mape = ((a.zip p).map fun x => |x.1 - x.2|).sum / a.sum) ∧
    ratio_of_sums_mape ([10, 20, 30] : List ℝ) [12, 18, 33]
      ≠ mean_of_ratios_mape ([10, 20, 30] : List ℝ) [12, 18, 33] := by
  constructor
  · exact ⟨_, evaluate_ok a p hlen hne hsum, rfl⟩
  · unfold ratio_of_sums_mape mean_of_ratios_mape
    norm_num [List.zip_cons_cons, List.zip_nil_right, abs_of_nonneg, abs_of_nonpos]

/-- Witness for C1 at `actual = [10, 20, 30]`, `predicted = [12, 18, 33]`:
the returned MAPE is `7 / 60`. -/
theorem evaluate_mape_eq_ratio_of_sums_witness :
    ∃ r : MetricResult, evaluate [10, 20, 30] [12, 18, 33] = .ok r ∧ r.mape = 7 / 60 := by
  obtain ⟨⟨r, hr, hm⟩, -⟩ :=
    evaluate_mape_eq_ratio_of_sums [10, 20, 30] [12, 18, 33]
      (by simp) (by simp) (by norm_num)
  refine ⟨r, hr, ?_⟩
  rw [hm]
  norm_num [List.zip_cons_cons, List.zip_nil_right, abs_of_nonneg, abs_of_nonpos]

/-- C2: whenever the two input sequences differ in length, or either is empty,
`evaluate` fails with the input-validation error instead of returning a
metric record (the scikit-learn call of the RMSE cell validates its inputs
before anything is computed). -/
theorem evaluate_invalid_of_mismatch_or_empty (a p : List ℝ)
    (h : a.length ≠ p.length ∨ a = [] ∨ p = []) :
    evaluate a p = .error .invalidInput := by
  apply evaluate_err_invalid
  rcases h with h | h | h
  · exact Or.inl h
  · exact Or.inr (by simp [h])
  · by_cases ha : a = []
    · exact Or.inr (by simp [ha])
    · refine Or.inl ?_
      rw [h]
      simpa using fun hc => ha (List.length_eq_zero.mp hc)

/-- Witness for C2: with `actual` of length 3 and `predicted` of length 2,
and likewise with two empty sequences, `evaluate` fails with the
input-validation error. -/
theorem evaluate_invalid_of_mismatch_or_empty_witness :
    evaluate [10, 20, 30] [1, 2] = .error .invalidInput ∧
    evaluate ([] : List ℝ) [] = .error .invalidInput :=
  ⟨evaluate_invalid_of_mismatch_or_empty [10, 20, 30] [1, 2] (Or.inl (by simp)),
   evaluate_invalid_of_mismatch_or_empty [] [] (Or.inr (Or.inl rfl))⟩

/-- C3: for every pair of equal-length non-empty sequences whose actual values
sum to zero, `evaluate` fails with the division-by-zero error rather than
returning a metric record (Python's division raises `ZeroDivisionError`;
no infinity or NaN is produced). -/
theorem evaluate_divisionByZero_of_sum_zero (a p : List ℝ)
    (hlen : a.length = p.length) (hne : a ≠ []) (hsum : a.sum = 0) :
    evaluate a p = .error .divisionByZero :=
  evaluate_err_div a p hlen hne hsum

/-- Witness for C3 at `actual = [0, 0, 0]`, `predicted = [5, 6, 7]`. -/
theorem evaluate_divisionByZero_of_sum_zero_witness :
    evaluate [0, 0, 0] [5, 6, 7] = .error .divisionByZero :=
  evaluate_divisionByZero_of_sum_zero [0, 0, 0] [5, 6, 7]
    (by simp) (by simp) (by norm_num)

lemma evaluate_concrete_eval :
    evaluate [10, 20, 30] [12, 18, 33]
      = .ok ⟨Real.sqrt (17 / 3), 7 / 60, 53 / 60⟩ := by
  rw [evaluate_ok [10, 20, 30] [12, 18, 33] (by simp) (by simp) (by norm_num)]
  simp only [Except.ok.injEq, MetricResult.mk.injEq]
  refine ⟨?_, ?_, ?_⟩
  · congr 1
    norm_num [List.zip_cons_cons, List.zip_nil_right]
  · norm_num [ratio_of_sums_mape, List.zip_cons_cons, List.zip_nil_right,
      abs_of_nonneg, abs_of_nonpos]
  · norm_num [ratio_of_sums_mape, List.zip_cons_cons, List.zip_nil_right,
      abs_of_nonneg, abs_of_nonpos]

/-- C4: for every pair of equal-length non-empty sequences (with nonzero sum
of actual values, without which no metric record is returned at all), the
RMSE returned by `evaluate` is the square root of the mean of the squared
per-pair differences, and it is nonnegative. -/
theorem evaluate_rmse_eq_sqrt_mean_sq (a p : List ℝ)
    (hlen : a.length = p.length) (hne : a ≠ []) (hsum : a.sum ≠ 0) :
    ∃ r : MetricResult, evaluate a p = .ok r ∧
      r.rmse = Real.sqrt (((a.zip p).map fun x => (x.1 - x.2) ^ 2).sum / (a.length : ℝ)) ∧
      0 ≤ r.rmse :=
  ⟨_, evaluate_ok a p hlen hne hsum, rfl, Real.sqrt_nonneg _⟩

/-- Witness for C4 at `actual = [10, 20, 30]`, `predicted = [12, 18, 33]`:
the returned RMSE is `√(17 / 3)`. -/
theorem evaluate_rmse_eq_sqrt_mean_sq_witness :
    ∃ r : MetricResult, evaluate [10, 20, 30] [12, 18, 33] = .ok r ∧
      r.rmse = Real.sqrt (17 / 3) ∧ 0 ≤ r.rmse := by
  obtain ⟨r, hr, hrm, hge⟩ :=
    evaluate_rmse_eq_sqrt_mean_sq [10, 20, 30] [12, 18, 33]
      (by simp) (by simp) (by norm_num)
  refine ⟨r, hr, ?_, hge⟩
  rw [hrm]
  congr 1
  norm_num [List.zip_cons_cons, List.zip_nil_right]

/-- C5: for every pair of equal-length non-empty sequences with nonzero sum
of actual values, the accuracy returned by `evaluate` is exactly `1 - mape`;
it is not clamped, so it is negative whenever the returned MAPE exceeds 1. -/
theorem evaluate_accuracy_eq_one_sub_mape (a p : List ℝ)
    (hlen : a.length = p.length) (hne : a ≠ []) (hsum : a.sum ≠ 0) :
    ∃ r : MetricResult, evaluate a p = .ok r ∧ r.accuracy = 1 - r.mape ∧
      (1 < r.mape → r.accuracy < 0) := by
  refine ⟨_, evaluate_ok a p hlen hne hsum, rfl, fun h => ?_⟩
  have h1 : 1 < ratio_of_sums_mape a p := h
  show 1 - ratio_of_sums_mape a p < 0
  linarith

/-- Witness for C5 at `actual = [10, 20, 30]`, `predicted = [12, 18, 33]`. -/
theorem evaluate_accuracy_eq_one_sub_mape_witness :
    ∃ r : MetricResult, evaluate [10, 20, 30] [12, 18, 33] = .ok r ∧
      r.accuracy = 1 - r.mape := by
  obtain ⟨r, hr, hacc, -⟩ :=
    evaluate_accuracy_eq_one_sub_mape [10, 20, 30] [12, 18, 33]
      (by simp) (by simp) (by norm_num)
  exact ⟨r, hr, hacc⟩

/-- C6: whenever `evaluate` returns a metric record, the returned RMSE is zero
if and only if the actual and predicted sequences are identical
element-wise. -/
theorem evaluate_rmse_eq_zero_iff (a p : List ℝ) (r : MetricResult)
    (h : evaluate a p = .ok r) : r.rmse = 0 ↔ a = p := by
  obtain ⟨hlen, hne, hsum⟩ := evaluate_ok_inv a p r h
  rw [evaluate_ok_val a p r h]
  show Real.sqrt _ = 0 ↔ _
  rw [Real.sqrt_eq_zero']
  have hS : 0 ≤ ((a.zip p).map fun x => (x.1 - x.2) ^ 2).sum := by
    apply List.sum_nonneg
    intro z hz
    obtain ⟨w, _, hw⟩ := List.mem_map.mp hz
    exact hw ▸ sq_nonneg _
  have hn : 0 < (a.length : ℝ) := by
    exact_mod_cast List.length_pos.mpr hne
  constructor
  · intro hle
    have h0 : ((a.zip p).map fun x => (x.1 - x.2) ^ 2).sum / (a.length : ℝ) = 0 :=
      le_antisymm hle (div_nonneg hS hn.le)
    have hS0 : ((a.zip p).map fun x => (x.1 - x.2) ^ 2).sum = 0 := by
      rcases div_eq_zero_iff.mp h0 with h' | h'
      · exact h'
      · exact absurd h' (ne_of_gt hn)
    exact (zip_sum_zero_iff (fun x => sq_nonneg x) (fun x => sq_eq_zero_iff) a p hlen).mp hS0
  · intro hap
    have hS0 : ((a.zip p).map fun x => (x.1 - x.2) ^ 2).sum = 0 :=
      (zip_sum_zero_iff (fun x => sq_nonneg x) (fun x => sq_eq_zero_iff) a p hlen).mpr hap
    rw [hS0]
    simp

/-- Witness for C6 at `actual = [10, 20, 30]`, `predicted = [12, 18, 33]`. -/
theorem evaluate_rmse_eq_zero_iff_witness :
    (⟨Real.sqrt (17 / 3), 7 / 60, 53 / 60⟩ : MetricResult).rmse = 0 ↔
      ([10, 20, 30] : List ℝ) = [12, 18, 33] :=
  evaluate_rmse_eq_zero_iff [10, 20, 30] [12, 18, 33] _ evaluate_concrete_eval

/-- C7: whenever `evaluate` returns a metric record (which requires the
actual values to have nonzero sum), the returned MAPE is zero if and only
if the actual and predicted sequences are identical element-wise. -/
theorem evaluate_mape_eq_zero_iff (a p : List ℝ) (r : MetricResult)
    (h : evaluate a p = .ok r) : r.mape = 0 ↔ a = p := by
  obtain ⟨hlen, hne, hsum⟩ := evaluate_ok_inv a p r h
  rw [evaluate_ok_val a p r h]
  show ratio_of_sums_mape a p = 0 ↔ _
  unfold ratio_of_sums_mape
  rw [div_eq_zero_iff]
  constructor
  · rintro (hT | hA)
    · exact (zip_sum_zero_iff (fun x => abs_nonneg x) (fun x => abs_eq_zero) a p hlen).mp hT
    · exact absurd hA hsum
  · intro hap
    exact Or.inl
      ((zip_sum_zero_iff (fun x => abs_nonneg x) (fun x => abs_eq_zero) a p hlen).mpr hap)

/-- Witness for C7 at `actual = [10, 20, 30]`, `predicted = [12, 18, 33]`. -/
theorem evaluate_mape_eq_zero_iff_witness :
    (⟨Real.sqrt (17 / 3), 7 / 60, 53 / 60⟩ : MetricResult).mape = 0 ↔
      ([10, 20, 30] : List ℝ) = [12, 18, 33] :=
  evaluate_mape_eq_zero_iff [10, 20, 30] [12, 18, 33] _ evaluate_concrete_eval

/-- C8: on `actual = [10, 20, 30]`, `predicted = [12, 18, 33]`, `evaluate`
returns rmse `√(17 / 3)` (squared errors `[4, 4, 9]`, mean `17 / 3`),
mape `7 / 60` (absolute errors `[2, 2, 3]` summing to 7, actual sum 60),
and accuracy `53 / 60`. -/
theorem evaluate_concrete_scenario :
    evaluate [10, 20, 30] [12, 18, 33]
      = .ok ⟨Real.sqrt (17 / 3), 7 / 60, 53 / 60⟩ :=
  evaluate_concrete_eval

/-- C9: when the two input sequences have different lengths (both non-empty,
with the first `min m n` actual values summing to a nonzero value), the MAPE
computation raises no error: it returns the ratio-of-sums metric over only
the first `min m n` pairs, silently ignoring the trailing elements of the
longer sequence. -/
theorem mape_mismatched_lengths_truncate (a p : List ℝ)
    (_hne_a : a ≠ []) (_hne_p : p ≠ []) (_hlen : a.length ≠ p.length)
    (hsum : (a.take (min a.length p.length)).sum ≠ 0) :
    mean_abs_percent_error a p
      = .ok (((a.zip p).map fun x => |x.1 - x.2|).sum
          / (a.take (min a.length p.length)).sum) := by
  have hfst : ((a.zip p).map Prod.fst).sum = (a.take (min a.length p.length)).sum := by
    rw [zip_map_fst_take]
  rw [mape_ok a p (by rw [hfst]; exact hsum), hfst]

/-- Witness for C9 at `actual = [10, 20, 30]`, `predicted = [1, 2]`: the loop
runs over the two zipped pairs only and returns `(9 + 18) / (10 + 20)`. -/
theorem mape_mismatched_lengths_truncate_witness :
    mean_abs_percent_error ([10, 20, 30] : List ℝ) [1, 2] = .ok (9 / 10) := by
  rw [mape_mismatched_lengths_truncate [10, 20, 30] [1, 2] (by simp) (by simp)
    (by simp) (by norm_num)]
  norm_num [List.zip_cons_cons, List.zip_nil_right, abs_of_nonneg, abs_of_nonpos]

/-- C10: the branch multiplying a negative difference by `-1` makes the loop's
`abs_error` equal to the absolute value `|actual - predicted|` for all real
inputs, so the accumulated `sum_errors` is the sum of the absolute per-pair
differences: the branchy loop is extensionally a computation with `abs`. -/
theorem abs_error_branch_eq_abs (a p : ℝ) (ya yp : List ℝ) :
    abs_error a p = |a - p| ∧
    (mapeSums ya yp).1 = ((ya.zip yp).map fun x => |x.1 - x.2|).sum := by
  refine ⟨abs_error_abs a p, ?_⟩
  rw [mapeSums_eq]
